import Mathlib

/-!
Verification of the Star Pusher puzzle core (starpusher.py).

The Python functions `isWall`, `isBlocked`, `makeMove`, `applyMove`,
`isLevelFinished`, `initGameState`, `isSameVector`, `trace_path` and
`a_star_search`, together with the undo/redo key handlers of `runLevel`,
are embedded below as pure Lean functions.  The game-state dictionary
becomes the `GameState` structure; Python lists used as stacks
(`append`/`pop` at the right end) are modelled as Lean lists whose head
is the stack top, which realises the same LIFO observable behaviour.
Machine integers are modelled as `Int` (Python ints are unbounded).
Out-of-range list subscripts, which raise `IndexError` in Python, are
modelled by threading `Except AStarErr` through the A* search, whose
list accesses are the only ones not guarded by explicit bounds checks
in the source.
-/

/-- A grid coordinate.  The map object is a list of columns, indexed
`mapObj[x][y]` exactly as in the Python source. -/
abbrev Coord := Int × Int

/-- The map object: a list of columns of tile characters (`mapObj[x][y]`). -/
abbrev MapObj := List (List Char)

/-- Tile character at `(x, y)`; only meaningful in bounds (both callers
check bounds first, as the Python subscripts would otherwise raise). -/
def tileAt (mapObj : MapObj) (x y : Int) : Char :=
  (mapObj.getD x.toNat []).getD y.toNat ' '

/-- The bounds test `x < 0 or x >= len(mapObj) or y < 0 or y >= len(mapObj[x])`
shared by `isWall` and `isBlocked` in the source. -/
def offGrid (mapObj : MapObj) (x y : Int) : Bool :=
  x < 0 || (mapObj.length : Int) ≤ x || y < 0 ||
    ((mapObj.getD x.toNat []).length : Int) ≤ y

/-- Python `isWall` (starpusher.py lines 314-321): out-of-bounds
coordinates are reported as not walls. -/
def isWall (mapObj : MapObj) (x y : Int) : Bool :=
  if offGrid mapObj x y then false
  else tileAt mapObj x y == '#' || tileAt mapObj x y == 'x'

/-- One entry of a move list: Python `[xold, yold, xnew, ynew, index]`
(starpusher.py lines 405-421), with `index = -1` denoting the player and
a non-negative index denoting `stars[index]`. -/
structure StepRecord where
  oldX : Int
  oldY : Int
  newX : Int
  newY : Int
  index : Int
deriving Repr, DecidableEq

/-- A move is a list of one or two step records. -/
abbrev MoveRecord := List StepRecord

/-- The mutable game-state dictionary `gameStateObj` of the source. -/
structure GameState where
  player : Coord
  stars : List Coord
  stepCounter : Int
  pushCounter : Int
  undoStack : List MoveRecord
  redoStack : List MoveRecord
deriving Repr, DecidableEq, Inhabited

/-- Python `isBlocked` (starpusher.py lines 364-377). -/
def isBlocked (mapObj : MapObj) (s : GameState) (x y : Int) : Bool :=
  if isWall mapObj x y then true
  else if offGrid mapObj x y then true
  else if (x, y) ∈ s.stars then true
  else false

/-- Direction constant `UP = (0, -1)` (starpusher.py line 35). -/
def UP : Int × Int := (0, -1)

/-- Direction constant `DOWN = (0, 1)` (starpusher.py line 36). -/
def DOWN : Int × Int := (0, 1)

/-- Direction constant `LEFT = (-1, 0)` (starpusher.py line 37). -/
def LEFT : Int × Int := (-1, 0)

/-- Direction constant `RIGHT = (1, 0)` (starpusher.py line 38). -/
def RIGHT : Int × Int := (1, 0)

/-- One iteration of the `for step in move` loop of Python `applyMove`
(starpusher.py lines 432-445). -/
def applyStep (s : GameState) (step : StepRecord) (undo : Bool) : GameState :=
  let x : Int := if undo then step.oldX else step.newX
  let y : Int := if undo then step.oldY else step.newY
  let increment : Int := if undo then -1 else 1
  if step.index = -1 then
    { s with player := (x, y), stepCounter := s.stepCounter + increment }
  else
    { s with stars := s.stars.set step.index.toNat (x, y),
             pushCounter := s.pushCounter + increment }

/-- Python `applyMove` (starpusher.py lines 428-445): apply the steps of
`move` in list order. -/
def applyMove (s : GameState) (move : MoveRecord) (undo : Bool) : GameState :=
  match move with
  | [] => s
  | step :: rest => applyMove (applyStep s step undo) rest undo

/-- Python `stars.index(xy)` (starpusher.py line 412): index of the first
occurrence.  (The source call site guarantees membership, so the raising
branch of `list.index` is unreachable there.) -/
def listIndex (a : Coord) : List Coord → Nat
  | [] => 0
  | b :: t => if b = a then 0 else listIndex a t + 1

/-- Python `makeMove` (starpusher.py lines 380-425).  Returns the Python
return value paired with the state after the call (the Python function
mutates `gameStateObj` in place). -/
def makeMove (mapObj : MapObj) (s : GameState) (playerMoveTo : Option (Int × Int)) :
    Bool × GameState :=
  match playerMoveTo with
  | none => (false, s)
  | some (xOffset, yOffset) =>
    if xOffset = 0 ∧ yOffset = 0 then (false, s)
    else if isWall mapObj (s.player.1 + xOffset) (s.player.2 + yOffset) then (false, s)
    else
      if (s.player.1 + xOffset, s.player.2 + yOffset) ∈ s.stars then
        if isBlocked mapObj s (s.player.1 + 2 * xOffset) (s.player.2 + 2 * yOffset) = false then
          let ind : Nat := listIndex (s.player.1 + xOffset, s.player.2 + yOffset) s.stars
          let move : MoveRecord :=
            [⟨s.player.1 + xOffset, s.player.2 + yOffset,
              s.player.1 + 2 * xOffset, s.player.2 + 2 * yOffset, (ind : Int)⟩,
             ⟨s.player.1, s.player.2,
              s.player.1 + xOffset, s.player.2 + yOffset, -1⟩]
          let s2 := applyMove s move false
          (true, { s2 with undoStack := move :: s2.undoStack, redoStack := [] })
        else (false, s)
      else
        let move : MoveRecord :=
          [⟨s.player.1, s.player.2,
            s.player.1 + xOffset, s.player.2 + yOffset, -1⟩]
        let s2 := applyMove s move false
        (true, { s2 with undoStack := move :: s2.undoStack, redoStack := [] })

/-- The `K_u` undo handler of `runLevel` (starpusher.py lines 210-216):
pop the undo stack, apply the move reversed, push it on the redo stack.
A no-op when the undo stack is empty. -/
def undoOp (s : GameState) : GameState :=
  match s.undoStack with
  | [] => s
  | move :: rest =>
    let s2 := applyMove { s with undoStack := rest } move true
    { s2 with redoStack := move :: s2.redoStack }

/-- The `K_r` redo handler of `runLevel` (starpusher.py lines 217-221):
pop the redo stack, apply the move forward, push it on the undo stack.
A no-op when the redo stack is empty. -/
def redoOp (s : GameState) : GameState :=
  match s.redoStack with
  | [] => s
  | move :: rest =>
    let s2 := applyMove { s with redoStack := rest } move false
    { s2 with undoStack := move :: s2.undoStack }

/-- Python `isLevelFinished` (starpusher.py lines 694-700): scan the
goals, returning false at the first goal not covered by a star. -/
def isLevelFinished (goals : List Coord) (s : GameState) : Bool :=
  match goals with
  | [] => true
  | g :: gs => if g ∈ s.stars then isLevelFinished gs s else false

/-- Python `initGameState` (starpusher.py lines 703-711), specialised to
the start state `(player, stars)` it copies out of the level object. -/
def initGameState (player : Coord) (stars : List Coord) : GameState :=
  { player := player, stars := stars, stepCounter := 0, pushCounter := 0,
    undoStack := [], redoStack := [] }

/-- Python `isSameVector` (starpusher.py lines 745-746). -/
def isSameVector (x1 y1 x2 y2 : Int) : Bool :=
  x1 == x2 && y1 == y2

/-- Outcomes of a run of the embedded A* search that do not produce a
value: an out-of-range list subscript (Python `IndexError`) or the
recursion budget of the embedding running out. -/
inductive AStarErr where
  | indexError
  | fuelExhausted
deriving Repr, DecidableEq

/-- Python list subscript `l[i]`: non-negative indices from the front,
negative indices from the back, `none` when the subscript would raise
`IndexError`. -/
def pyGet? (l : List α) (i : Int) : Option α :=
  let k : Int := if i < 0 then (l.length : Int) + i else i
  if k < 0 then none else l.get? k.toNat

/-- Python list subscript assignment `l[i] = a` (callers first check the
subscript with `pyGet?`, as the Python assignment would raise on the
same subscripts for which `pyGet?` is `none`). -/
def pySet (l : List α) (i : Int) (a : α) : List α :=
  let k : Int := if i < 0 then (l.length : Int) + i else i
  l.set k.toNat a

/-- Nested subscript `xss[i][j]` on the 2-dimensional lists of the search. -/
def get2? (xss : List (List α)) (i j : Int) : Option α :=
  match pyGet? xss i with
  | none => none
  | some row => pyGet? row j

/-- Nested subscript assignment `xss[i][j] = a`. -/
def set2 (xss : List (List α)) (i j : Int) (a : α) : List (List α) :=
  match pyGet? xss i with
  | none => xss
  | some row => pySet xss i (pySet row j a)

/-- Python `sys.maxsize` on a 64-bit build, the initial `f` and `g` of a
`Cell`. -/
def maxsize : Int := 2 ^ 63 - 1

/-- Python class `Cell` (starpusher.py lines 735-741) with its
constructor defaults. -/
structure Cell where
  parent_i : Int := 0
  parent_j : Int := 0
  f : Int := maxsize
  g : Int := maxsize
  h : Int := 0
deriving Repr, DecidableEq

/-- Lexicographic order on heap entries `(f, i, j)`: `heapq` pops the
tuple-least entry. -/
def heapLe (a b : Int × Int × Int) : Bool :=
  a.1 < b.1 || (a.1 == b.1 && (a.2.1 < b.2.1 || (a.2.1 == b.2.1 && a.2.2 ≤ b.2.2)))

/-- Pop the least entry of the open list, as `heapq.heappop` does.  The
open list is modelled as an unordered list of entries; `heappush` is
modelled as `cons`. -/
def popMin : List (Int × Int × Int) → Option ((Int × Int × Int) × List (Int × Int × Int))
  | [] => none
  | x :: xs =>
    let m := xs.foldl (fun acc y => if heapLe acc y then acc else y) x
    some (m, (x :: xs).erase m)

/-- The mutable search data of `a_star_search`: visited matrix, cell
details and open list. -/
structure AStarState where
  closed : List (List Bool)
  cells : List (List Cell)
  openList : List (Int × Int × Int)
deriving Repr

/-- The `while` loop of Python `trace_path` (starpusher.py lines 750-767),
walking parent pointers and appending each visited coordinate; the
Python loop has no bound of its own, so the embedding carries fuel. -/
def traceLoop (cells : List (List Cell)) :
    Nat → Int → Int → List Coord → Except AStarErr (List Coord)
  | 0, _, _, _ => .error .fuelExhausted
  | fuel + 1, row, col, path =>
    match get2? cells row col with
    | none => .error .indexError
    | some c =>
      if c.parent_i = row ∧ c.parent_j = col then .ok (path ++ [(row, col)])
      else traceLoop cells fuel c.parent_i c.parent_j (path ++ [(row, col)])

/-- Python `trace_path` (starpusher.py lines 750-767): the resulting
sequence is ordered destination first, source last. -/
def trace_path (cells : List (List Cell)) (dest : Coord) (fuel : Nat) :
    Except AStarErr (List Coord) :=
  traceLoop cells fuel dest.1 dest.2 []

/-- One direction of the successor loop of `a_star_search`
(starpusher.py lines 809-837), for the cell `(i, j)` just popped.
Produces an error, a finished path (destination reached), or the
updated search data. -/
def processDir (mapObj : MapObj) (s : GameState) (dest : Coord) (tf : Nat)
    (i j : Int) (st : AStarState) (d : Int × Int) :
    Except AStarErr (Sum (List Coord) AStarState) :=
  let new_i := i + d.1
  let new_j := j + d.2
  if isBlocked mapObj s new_i new_j then .ok (.inr st)
  else
    match get2? st.closed new_i new_j with
    | none => .error .indexError
    | some visited =>
      if visited then .ok (.inr st)
      else if isSameVector new_i new_j dest.1 dest.2 then
        match get2? st.cells new_i new_j with
        | none => .error .indexError
        | some c =>
          let cells2 := set2 st.cells new_i new_j { c with parent_i := i, parent_j := j }
          match trace_path cells2 dest tf with
          | .error e => .error e
          | .ok p => .ok (.inl p)
      else
        match get2? st.cells i j with
        | none => .error .indexError
        | some cij =>
          match get2? st.cells new_i new_j with
          | none => .error .indexError
          | some cnew =>
            let g_new : Int := cij.g + 1
            let h_new : Int := ((new_i - dest.1).natAbs : Int) + ((new_j - dest.2).natAbs : Int)
            let f_new : Int := g_new + h_new
            if f_new < cnew.f then
              .ok (.inr { st with
                openList := (f_new, new_i, new_j) :: st.openList,
                cells := set2 st.cells new_i new_j
                  { parent_i := i, parent_j := j, f := f_new, g := g_new, h := h_new } })
            else .ok (.inr st)

/-- The `for dir in [(0, 1), (0, -1), (1, 0), (-1, 0)]` successor loop of
`a_star_search`, with the early `return` on reaching the destination. -/
def processDirs (mapObj : MapObj) (s : GameState) (dest : Coord) (tf : Nat)
    (i j : Int) : List (Int × Int) → AStarState →
    Except AStarErr (Sum (List Coord) AStarState)
  | [], st => .ok (.inr st)
  | d :: ds, st =>
    match processDir mapObj s dest tf i j st d with
    | .error e => .error e
    | .ok (.inl p) => .ok (.inl p)
    | .ok (.inr st2) => processDirs mapObj s dest tf i j ds st2

/-- The main `while len(open_list) > 0` loop of `a_star_search`
(starpusher.py lines 799-837); the Python loop has no bound of its own,
so the embedding carries fuel. -/
def aStarLoop (mapObj : MapObj) (s : GameState) (dest : Coord) (tf : Nat) :
    Nat → AStarState → Except AStarErr (Option (List Coord))
  | 0, _ => .error .fuelExhausted
  | fuel + 1, st =>
    match popMin st.openList with
    | none => .ok none
    | some (p, rest) =>
      let i := p.2.1
      let j := p.2.2
      match get2? st.closed i j with
      | none => .error .indexError
      | some _ =>
        let st2 : AStarState := { st with openList := rest, closed := set2 st.closed i j true }
        match processDirs mapObj s dest tf i j [(0, 1), (0, -1), (1, 0), (-1, 0)] st2 with
        | .error e => .error e
        | .ok (.inl path) => .ok (some path)
        | .ok (.inr st3) => aStarLoop mapObj s dest tf fuel st3

/-- Python `a_star_search` (starpusher.py lines 771-840).  The source
subscripts `mapObj[0]` for `mapHeight = len(mapObj[0]) - 1` on line 774,
before the blocked/same-tile check of line 776, so an empty `mapObj`
raises `IndexError` whatever the destination; the embedding performs the
subscript in the same position.  Note `mapHeight` is the pixel-height
expression of `getMapSize`, and `closed_list` and `cell_details` are
sized with it, so both matrices have one row fewer than the grid.  (For
an empty first column, truncated `Nat` subtraction yields the same empty
matrices as Python's `range(-1)`.)  The fuel is a generous budget: every
heap push strictly decreases the stored `f` of its cell, so the source
loop terminates, and the bound is never reached in the concrete runs
proved below. -/
def a_star_search (dest : Coord) (mapObj : MapObj) (s : GameState) :
    Except AStarErr (Option (List Coord)) :=
  let src := s.player
  let mapWidth : Nat := mapObj.length
  match pyGet? mapObj 0 with
  | none => .error .indexError
  | some col0 =>
    let mapHeight : Nat := col0.length - 1
    if isBlocked mapObj s dest.1 dest.2 || isSameVector src.1 src.2 dest.1 dest.2 then
      .ok none
    else
      let closed : List (List Bool) := List.replicate mapWidth (List.replicate mapHeight false)
      let cells : List (List Cell) := List.replicate mapWidth (List.replicate mapHeight {})
      let i := src.1
      let j := src.2
      match get2? cells i j with
      | none => .error .indexError
      | some _ =>
        let cells2 := set2 cells i j { parent_i := i, parent_j := j, f := 0, g := 0, h := 0 }
        let fuel : Nat := (mapWidth * mapHeight + 2) ^ 3
        aStarLoop mapObj s dest fuel fuel
          { closed := closed, cells := cells2, openList := [(0, i, j)] }

/-! ### Branch characterisations of `makeMove` -/

theorem makeMove_none (mapObj : MapObj) (s : GameState) :
    makeMove mapObj s none = (false, s) := rfl

theorem makeMove_zero (mapObj : MapObj) (s : GameState) {dx dy : Int}
    (h : dx = 0 ∧ dy = 0) :
    makeMove mapObj s (some (dx, dy)) = (false, s) := by
  simp only [makeMove, if_pos h]

theorem makeMove_wall (mapObj : MapObj) (s : GameState) {dx dy : Int}
    (hne : ¬(dx = 0 ∧ dy = 0))
    (hw : isWall mapObj (s.player.1 + dx) (s.player.2 + dy) = true) :
    makeMove mapObj s (some (dx, dy)) = (false, s) := by
  simp only [makeMove, if_neg hne, hw, if_pos trivial, if_true]

theorem makeMove_push_blocked (mapObj : MapObj) (s : GameState) {dx dy : Int}
    (hne : ¬(dx = 0 ∧ dy = 0))
    (hw : isWall mapObj (s.player.1 + dx) (s.player.2 + dy) = false)
    (hmem : (s.player.1 + dx, s.player.2 + dy) ∈ s.stars)
    (hb : isBlocked mapObj s (s.player.1 + 2 * dx) (s.player.2 + 2 * dy) = true) :
    makeMove mapObj s (some (dx, dy)) = (false, s) := by
  simp only [makeMove, if_neg hne, hw, Bool.false_eq_true, if_false, if_pos hmem, hb,
    if_neg (by simp : ¬(true = false))]

theorem makeMove_push_succ (mapObj : MapObj) (s : GameState) {dx dy : Int}
    (hne : ¬(dx = 0 ∧ dy = 0))
    (hw : isWall mapObj (s.player.1 + dx) (s.player.2 + dy) = false)
    (hmem : (s.player.1 + dx, s.player.2 + dy) ∈ s.stars)
    (hnb : isBlocked mapObj s (s.player.1 + 2 * dx) (s.player.2 + 2 * dy) = false) :
    makeMove mapObj s (some (dx, dy)) =
      (true,
       { player := (s.player.1 + dx, s.player.2 + dy),
         stars := s.stars.set (listIndex (s.player.1 + dx, s.player.2 + dy) s.stars)
                    (s.player.1 + 2 * dx, s.player.2 + 2 * dy),
         stepCounter := s.stepCounter + 1,
         pushCounter := s.pushCounter + 1,
         undoStack :=
           [⟨s.player.1 + dx, s.player.2 + dy,
             s.player.1 + 2 * dx, s.player.2 + 2 * dy,
             (listIndex (s.player.1 + dx, s.player.2 + dy) s.stars : Int)⟩,
            ⟨s.player.1, s.player.2, s.player.1 + dx, s.player.2 + dy, -1⟩] :: s.undoStack,
         redoStack := [] }) := by
  have hi : ¬ ((listIndex (s.player.1 + dx, s.player.2 + dy) s.stars : Int) = -1) := by omega
  simp only [makeMove, if_neg hne, hw, Bool.false_eq_true, if_false, if_pos hmem, if_pos hnb,
    applyMove, applyStep, if_neg hi, eq_self_iff_true, if_true, Int.toNat_natCast]

theorem makeMove_plain_succ (mapObj : MapObj) (s : GameState) {dx dy : Int}
    (hne : ¬(dx = 0 ∧ dy = 0))
    (hw : isWall mapObj (s.player.1 + dx) (s.player.2 + dy) = false)
    (hnm : (s.player.1 + dx, s.player.2 + dy) ∉ s.stars) :
    makeMove mapObj s (some (dx, dy)) =
      (true,
       { player := (s.player.1 + dx, s.player.2 + dy),
         stars := s.stars,
         stepCounter := s.stepCounter + 1,
         pushCounter := s.pushCounter,
         undoStack :=
           [⟨s.player.1, s.player.2, s.player.1 + dx, s.player.2 + dy, -1⟩] :: s.undoStack,
         redoStack := [] }) := by
  simp only [makeMove, if_neg hne, hw, Bool.false_eq_true, if_false, if_neg hnm,
    applyMove, applyStep, eq_self_iff_true, if_true]

/-- C1: `makeMove` is atomic on failure: whenever it returns `false`
(`None` or zero-vector direction, wall at the target, or blocked push
target), the game state — player, stars, both counters and both stacks —
is exactly unchanged by the call. -/
theorem makeMove_false_state_unchanged (mapObj : MapObj) (s : GameState)
    (d : Option (Int × Int)) (h : (makeMove mapObj s d).1 = false) :
    (makeMove mapObj s d).2 = s := by
  match d with
  | none => rfl
  | some (dx, dy) =>
    by_cases h0 : dx = 0 ∧ dy = 0
    · rw [makeMove_zero mapObj s h0]
    · by_cases hw : isWall mapObj (s.player.1 + dx) (s.player.2 + dy) = true
      · rw [makeMove_wall mapObj s h0 hw]
      · rw [Bool.not_eq_true] at hw
        by_cases hmem : (s.player.1 + dx, s.player.2 + dy) ∈ s.stars
        · by_cases hb : isBlocked mapObj s (s.player.1 + 2 * dx) (s.player.2 + 2 * dy) = true
          · rw [makeMove_push_blocked mapObj s h0 hw hmem hb]
          · rw [Bool.not_eq_true] at hb
            rw [makeMove_push_succ mapObj s h0 hw hmem hb] at h
            simp at h
        · rw [makeMove_plain_succ mapObj s h0 hw hmem] at h
          simp at h

/-- Witness for C1: a concrete failing call (zero-vector direction on a
one-tile map) leaves the state unchanged. -/
theorem makeMove_false_state_unchanged_witness :
    (makeMove [[' ']] (initGameState (0, 0) []) (some (0, 0))).1 = false ∧
    (makeMove [[' ']] (initGameState (0, 0) []) (some (0, 0))).2 = initGameState (0, 0) [] :=
  ⟨rfl, makeMove_false_state_unchanged [[' ']] (initGameState (0, 0) []) (some (0, 0)) rfl⟩

/-- C6: a successful `makeMove` empties `redoStack` (whatever it held)
and pushes the new move record on top of `undoStack`; a failed
`makeMove` leaves both stacks unchanged. -/
theorem makeMove_stack_discipline (mapObj : MapObj) (s : GameState)
    (d : Option (Int × Int)) :
    ((makeMove mapObj s d).1 = true →
      (makeMove mapObj s d).2.redoStack = [] ∧
      ∃ mv, (makeMove mapObj s d).2.undoStack = mv :: s.undoStack) ∧
    ((makeMove mapObj s d).1 = false →
      (makeMove mapObj s d).2.undoStack = s.undoStack ∧
      (makeMove mapObj s d).2.redoStack = s.redoStack) := by
  match d with
  | none => exact ⟨fun h => by simp [makeMove] at h, fun _ => ⟨rfl, rfl⟩⟩
  | some (dx, dy) =>
    by_cases h0 : dx = 0 ∧ dy = 0
    · rw [makeMove_zero mapObj s h0]
      exact ⟨fun h => by simp at h, fun _ => ⟨rfl, rfl⟩⟩
    · by_cases hw : isWall mapObj (s.player.1 + dx) (s.player.2 + dy) = true
      · rw [makeMove_wall mapObj s h0 hw]
        exact ⟨fun h => by simp at h, fun _ => ⟨rfl, rfl⟩⟩
      · rw [Bool.not_eq_true] at hw
        by_cases hmem : (s.player.1 + dx, s.player.2 + dy) ∈ s.stars
        · by_cases hb : isBlocked mapObj s (s.player.1 + 2 * dx) (s.player.2 + 2 * dy) = true
          · rw [makeMove_push_blocked mapObj s h0 hw hmem hb]
            exact ⟨fun h => by simp at h, fun _ => ⟨rfl, rfl⟩⟩
          · rw [Bool.not_eq_true] at hb
            rw [makeMove_push_succ mapObj s h0 hw hmem hb]
            exact ⟨fun _ => ⟨rfl, _, rfl⟩, fun h => by simp at h⟩
        · rw [makeMove_plain_succ mapObj s h0 hw hmem]
          exact ⟨fun _ => ⟨rfl, _, rfl⟩, fun h => by simp at h⟩

/-- Witness for C6: a concrete successful move (with a non-empty redo
stack beforehand) ends with an empty redo stack and the record on top of
the undo stack. -/
theorem makeMove_stack_discipline_witness :
    ((makeMove [[' ', ' ']] { initGameState (0, 0) [] with
        redoStack := [[⟨0, 1, 0, 0, -1⟩]] } (some (0, 1))).1 = true) ∧
    ((makeMove [[' ', ' ']] { initGameState (0, 0) [] with
        redoStack := [[⟨0, 1, 0, 0, -1⟩]] } (some (0, 1))).2.redoStack = [] ∧
      ∃ mv, (makeMove [[' ', ' ']] { initGameState (0, 0) [] with
        redoStack := [[⟨0, 1, 0, 0, -1⟩]] } (some (0, 1))).2.undoStack =
          mv :: ({ initGameState (0, 0) [] with
            redoStack := [[⟨0, 1, 0, 0, -1⟩]] } : GameState).undoStack) :=
  ⟨rfl, (makeMove_stack_discipline _ _ _).1 rfl⟩

/-- C5: `isLevelFinished` is true iff every goal coordinate is an element
of the stars list; stars on no goal do not affect the result. -/
theorem isLevelFinished_iff_goals_subset (goals : List Coord) (s : GameState) :
    isLevelFinished goals s = true ↔ ∀ g ∈ goals, g ∈ s.stars := by
  induction goals with
  | nil => simp [isLevelFinished]
  | cons g gs ih =>
    by_cases hg : g ∈ s.stars
    · simp [isLevelFinished, hg, ih]
    · simp [isLevelFinished, hg]

/-- C9: off the grid, `isWall` fails open to `false` while `isBlocked`
reports `true`; on the grid, `isBlocked` holds exactly when the tile is a
wall character or a star occupies it. -/
theorem isWall_isBlocked_bounds (mapObj : MapObj) (s : GameState) (x y : Int) :
    (offGrid mapObj x y = true →
      isWall mapObj x y = false ∧ isBlocked mapObj s x y = true) ∧
    (offGrid mapObj x y = false →
      (isBlocked mapObj s x y = true ↔
        tileAt mapObj x y = '#' ∨ tileAt mapObj x y = 'x' ∨ (x, y) ∈ s.stars)) := by
  constructor
  · intro h
    refine ⟨by simp [isWall, h], ?_⟩
    simp only [isBlocked, isWall, h, if_true, Bool.false_eq_true, if_false]
  · intro h
    simp only [isBlocked, isWall, h, Bool.false_eq_true, if_false, Bool.or_eq_true, beq_iff_eq]
    split_ifs with h1 h2
    · simp only [true_iff]
      tauto
    · simp only [true_iff]
      tauto
    · simp only [Bool.false_eq_true, false_iff]
      tauto

/-- Witness for C9: the coordinate `(5, 0)` is outside the one-tile map,
where `isWall` answers `false` and `isBlocked` answers `true`. -/
theorem isWall_isBlocked_bounds_witness :
    offGrid [[' ']] 5 0 = true ∧
    (isWall [[' ']] 5 0 = false ∧ isBlocked [[' ']] (initGameState (0, 0) []) 5 0 = true) :=
  ⟨rfl, (isWall_isBlocked_bounds [[' ']] (initGameState (0, 0) []) 5 0).1 rfl⟩

/-- Counterexample to C8 as stated: on the empty map every destination is
blocked per `isBlocked`, yet `a_star_search` does not return `None` — the
subscript `mapObj[0]` of line 774 raises `IndexError` before the
blocked/same-tile check of line 776 is reached. -/
theorem a_star_search_empty_map_counterexample :
    isBlocked [] (initGameState (0, 0) []) 0 0 = true ∧
    a_star_search (0, 0) [] (initGameState (0, 0) []) = .error .indexError :=
  ⟨rfl, rfl⟩

/-- C8 (amended to non-empty maps): when the map has at least one column
and the destination is blocked per `isBlocked` or equals the player's
coordinate, `a_star_search` returns `None` immediately (the embedding is
pure, so the game state is untouched by construction).  On the empty map
the `mapObj[0]` subscript raises before the check. -/
theorem a_star_search_short_circuit (mapObj : MapObj) (s : GameState) (dest : Coord)
    (hne : mapObj ≠ [])
    (h : isBlocked mapObj s dest.1 dest.2 = true ∨ dest = s.player) :
    a_star_search dest mapObj s = .ok none := by
  match mapObj, hne with
  | col0 :: rest, _ =>
    rcases h with h | h
    · simp [a_star_search, pyGet?, h]
    · simp [a_star_search, pyGet?, h, isSameVector]

/-- Witness for C8: on a non-empty map, a destination occupied by a star
yields `None`. -/
theorem a_star_search_short_circuit_witness :
    (([[' ', ' ']] : MapObj) ≠ [] ∧
      isBlocked [[' ', ' ']] (initGameState (0, 0) [(0, 1)]) 0 1 = true) ∧
    a_star_search (0, 1) [[' ', ' ']] (initGameState (0, 0) [(0, 1)]) = .ok none :=
  ⟨⟨by decide, rfl⟩, a_star_search_short_circuit [[' ', ' ']] (initGameState (0, 0) [(0, 1)])
    (0, 1) (by decide) (Or.inl rfl)⟩

/-- The open 5-by-5 room with no walls and no stars used by C3. -/
def open5x5 : MapObj := List.replicate 5 (List.replicate 5 ' ')

/-- C3 (failing run): in the open 5-by-5 room, the search from `(0, 0)`
to `(4, 4)` does not return the 8-step route the spec promises: it
performs an out-of-range subscript (Python `IndexError`), because
`closed_list` and `cell_details` are sized with
`mapHeight = len(mapObj[0]) - 1` — the pixel-height expression — and so
lack the last grid row, which this search expands. -/
theorem a_star_search_open5x5_indexError :
    a_star_search (4, 4) open5x5 (initGameState (0, 0) []) =
      .error .indexError := by rfl

/-- C7 (failing run): on the open 1-by-2 map with the player in bounds at
`(0, 0)` and destination `(0, 1)`, the search raises instead of returning
a path or `None`: expanding the neighbour `(0, 1)` subscripts the
one-row-short `closed_list`. -/
theorem a_star_search_1x2_indexError :
    a_star_search (0, 1) [[' ', ' ']] (initGameState (0, 0) []) =
      .error .indexError := by rfl

/-! ### Properties of `listIndex` -/

theorem listIndex_of_get? {l : List Coord} {i : Nat} {a : Coord}
    (hnd : l.Nodup) (h : l.get? i = some a) : listIndex a l = i := by
  induction l generalizing i with
  | nil => simp [List.get?] at h
  | cons b t ih =>
    rcases List.nodup_cons.mp hnd with ⟨hb, ht⟩
    match i with
    | 0 =>
      simp [List.get?] at h
      simp [listIndex, h]
    | i + 1 =>
      simp only [List.get?] at h
      have hat : a ∈ t := List.get?_mem h
      have hba : ¬ b = a := fun e => hb (e ▸ hat)
      simp [listIndex, hba, ih ht h]

theorem get?_listIndex {l : List Coord} {a : Coord} (h : a ∈ l) :
    l.get? (listIndex a l) = some a := by
  induction l with
  | nil => simp at h
  | cons b t ih =>
    by_cases hba : b = a
    · simp [listIndex, hba, List.get?]
    · have hat : a ∈ t := by
        rcases List.mem_cons.mp h with e | hat
        · exact absurd e.symm hba
        · exact hat
      simp only [listIndex, if_neg hba, List.get?_cons_succ]
      exact ih hat

theorem set_get?_self {l : List Coord} {n : Nat} {a : Coord}
    (h : l.get? n = some a) : l.set n a = l := by
  induction l generalizing n with
  | nil => rfl
  | cons b t ih =>
    match n with
    | 0 =>
      simp [List.get?] at h
      simp [List.set, h]
    | n + 1 =>
      simp only [List.get?] at h
      simp [List.set, ih h]

/-- C2: push legality.  With the spec's data-model invariants (the stars
hold distinct coordinates, and no star sits on a wall tile), when the
tile `player + direction` holds the star of index `i`, `makeMove` with a
unit direction succeeds iff `player + 2*direction` is not blocked; on
success star `i` moves to `player + 2*direction`, the player moves to
`player + direction`, both counters increase by one, and the star's step
record precedes the player's in the move record pushed on the undo
stack; otherwise it returns `false` and changes nothing. -/
theorem makeMove_push_legality (mapObj : MapObj) (s : GameState) (dx dy : Int) (i : Nat)
    (hd : (dx, dy) ∈ [UP, DOWN, LEFT, RIGHT])
    (hget : s.stars.get? i = some (s.player.1 + dx, s.player.2 + dy))
    (hnd : s.stars.Nodup)
    (hw : isWall mapObj (s.player.1 + dx) (s.player.2 + dy) = false) :
    (((makeMove mapObj s (some (dx, dy))).1 = true) ↔
      isBlocked mapObj s (s.player.1 + 2 * dx) (s.player.2 + 2 * dy) = false) ∧
    (isBlocked mapObj s (s.player.1 + 2 * dx) (s.player.2 + 2 * dy) = false →
      makeMove mapObj s (some (dx, dy)) =
        (true,
         { player := (s.player.1 + dx, s.player.2 + dy),
           stars := s.stars.set i (s.player.1 + 2 * dx, s.player.2 + 2 * dy),
           stepCounter := s.stepCounter + 1,
           pushCounter := s.pushCounter + 1,
           undoStack :=
             [⟨s.player.1 + dx, s.player.2 + dy,
               s.player.1 + 2 * dx, s.player.2 + 2 * dy, (i : Int)⟩,
              ⟨s.player.1, s.player.2, s.player.1 + dx, s.player.2 + dy, -1⟩] :: s.undoStack,
           redoStack := [] })) ∧
    (isBlocked mapObj s (s.player.1 + 2 * dx) (s.player.2 + 2 * dy) = true →
      makeMove mapObj s (some (dx, dy)) = (false, s)) := by
  have hne : ¬(dx = 0 ∧ dy = 0) := by
    rintro ⟨rfl, rfl⟩
    simp only [UP, DOWN, LEFT, RIGHT, List.mem_cons, List.mem_singleton, Prod.mk.injEq,
      List.not_mem_nil, or_false] at hd
    rcases hd with ⟨h1, h2⟩ | ⟨h1, h2⟩ | ⟨h1, h2⟩ | ⟨h1, h2⟩ <;> omega
  have hmem : (s.player.1 + dx, s.player.2 + dy) ∈ s.stars := List.get?_mem hget
  have hidx : listIndex (s.player.1 + dx, s.player.2 + dy) s.stars = i :=
    listIndex_of_get? hnd hget
  by_cases hb : isBlocked mapObj s (s.player.1 + 2 * dx) (s.player.2 + 2 * dy) = true
  · refine ⟨?_, fun hnb => absurd hb (by simp [hnb]), fun _ =>
      makeMove_push_blocked mapObj s hne hw hmem hb⟩
    rw [makeMove_push_blocked mapObj s hne hw hmem hb]
    simp [hb]
  · rw [Bool.not_eq_true] at hb
    refine ⟨?_, fun _ => ?_, fun habs => absurd habs (by simp [hb])⟩
    · rw [makeMove_push_succ mapObj s hne hw hmem hb]
      simp [hb]
    · rw [makeMove_push_succ mapObj s hne hw hmem hb, hidx]

/-- Witness for C2: on a one-column map, pushing the star at `(0, 1)`
down to the free tile `(0, 2)` succeeds with the stated effect. -/
theorem makeMove_push_legality_witness :
    (((0 : Int), (1 : Int)) ∈ [UP, DOWN, LEFT, RIGHT] ∧
     (initGameState (0, 0) [(0, 1)]).stars.get? 0 =
       some ((initGameState (0, 0) [(0, 1)]).player.1 + 0,
             (initGameState (0, 0) [(0, 1)]).player.2 + 1) ∧
     (initGameState (0, 0) [(0, 1)]).stars.Nodup ∧
     isWall [[' ', ' ', ' ', ' ']] ((initGameState (0, 0) [(0, 1)]).player.1 + 0)
       ((initGameState (0, 0) [(0, 1)]).player.2 + 1) = false) ∧
    ((((makeMove [[' ', ' ', ' ', ' ']] (initGameState (0, 0) [(0, 1)]) (some (0, 1))).1 = true) ↔
      isBlocked [[' ', ' ', ' ', ' ']] (initGameState (0, 0) [(0, 1)])
        ((initGameState (0, 0) [(0, 1)]).player.1 + 2 * 0)
        ((initGameState (0, 0) [(0, 1)]).player.2 + 2 * 1) = false) ∧
    (isBlocked [[' ', ' ', ' ', ' ']] (initGameState (0, 0) [(0, 1)])
        ((initGameState (0, 0) [(0, 1)]).player.1 + 2 * 0)
        ((initGameState (0, 0) [(0, 1)]).player.2 + 2 * 1) = false →
      makeMove [[' ', ' ', ' ', ' ']] (initGameState (0, 0) [(0, 1)]) (some (0, 1)) =
        (true,
         { player := ((initGameState (0, 0) [(0, 1)]).player.1 + 0,
                      (initGameState (0, 0) [(0, 1)]).player.2 + 1),
           stars := (initGameState (0, 0) [(0, 1)]).stars.set 0
                      ((initGameState (0, 0) [(0, 1)]).player.1 + 2 * 0,
                       (initGameState (0, 0) [(0, 1)]).player.2 + 2 * 1),
           stepCounter := (initGameState (0, 0) [(0, 1)]).stepCounter + 1,
           pushCounter := (initGameState (0, 0) [(0, 1)]).pushCounter + 1,
           undoStack :=
             [⟨(initGameState (0, 0) [(0, 1)]).player.1 + 0,
               (initGameState (0, 0) [(0, 1)]).player.2 + 1,
               (initGameState (0, 0) [(0, 1)]).player.1 + 2 * 0,
               (initGameState (0, 0) [(0, 1)]).player.2 + 2 * 1, ((0 : Nat) : Int)⟩,
              ⟨(initGameState (0, 0) [(0, 1)]).player.1,
               (initGameState (0, 0) [(0, 1)]).player.2,
               (initGameState (0, 0) [(0, 1)]).player.1 + 0,
               (initGameState (0, 0) [(0, 1)]).player.2 + 1, -1⟩] ::
               (initGameState (0, 0) [(0, 1)]).undoStack,
           redoStack := [] })) ∧
    (isBlocked [[' ', ' ', ' ', ' ']] (initGameState (0, 0) [(0, 1)])
        ((initGameState (0, 0) [(0, 1)]).player.1 + 2 * 0)
        ((initGameState (0, 0) [(0, 1)]).player.2 + 2 * 1) = true →
      makeMove [[' ', ' ', ' ', ' ']] (initGameState (0, 0) [(0, 1)]) (some (0, 1)) =
        (false, initGameState (0, 0) [(0, 1)]))) :=
  ⟨⟨by decide, rfl, by decide, rfl⟩,
   makeMove_push_legality [[' ', ' ', ' ', ' ']] (initGameState (0, 0) [(0, 1)]) 0 1 0
     (by decide) rfl (by decide) rfl⟩

/-! ### Move reversibility -/

/-- A sequence of `makeMove` calls, all required to succeed: `some` of
the final state, or `none` if any call returns `false`.  This is the
"sequence of successful attemptMove calls" quantified over by the
reversibility property. -/
def movesSeq (mapObj : MapObj) (s : GameState) : List (Int × Int) → Option GameState
  | [] => some s
  | d :: ds =>
    if (makeMove mapObj s (some d)).1 then movesSeq mapObj (makeMove mapObj s (some d)).2 ds
    else none

/-- Agreement of two states on everything except the redo stack (the
redo stack is the one field undo does not restore). -/
def coreAgree (a b : GameState) : Prop :=
  a.player = b.player ∧ a.stars = b.stars ∧ a.stepCounter = b.stepCounter ∧
  a.pushCounter = b.pushCounter ∧ a.undoStack = b.undoStack

theorem coreAgree_refl (a : GameState) : coreAgree a a :=
  ⟨rfl, rfl, rfl, rfl, rfl⟩

theorem coreAgree_trans {a b c : GameState} (h1 : coreAgree a b) (h2 : coreAgree b c) :
    coreAgree a c := by
  obtain ⟨p1, s1, c1, u1, d1⟩ := h1
  obtain ⟨p2, s2, c2, u2, d2⟩ := h2
  exact ⟨p1.trans p2, s1.trans s2, c1.trans c2, u1.trans u2, d1.trans d2⟩

theorem applyStep_coreAgree {a b : GameState} (h : coreAgree a b)
    (st : StepRecord) (u : Bool) : coreAgree (applyStep a st u) (applyStep b st u) := by
  obtain ⟨h1, h2, h3, h4, h5⟩ := h
  by_cases hi : st.index = -1 <;>
    simp [applyStep, hi, coreAgree, h1, h2, h3, h4, h5]

theorem applyMove_coreAgree {a b : GameState} (h : coreAgree a b)
    (move : MoveRecord) (u : Bool) : coreAgree (applyMove a move u) (applyMove b move u) := by
  induction move generalizing a b with
  | nil => exact h
  | cons st rest ih => exact ih (applyStep_coreAgree h st u)

theorem undoOp_coreAgree {a b : GameState} (h : coreAgree a b) :
    coreAgree (undoOp a) (undoOp b) := by
  have h5 : a.undoStack = b.undoStack := h.2.2.2.2
  unfold undoOp
  rw [h5]
  cases hb : b.undoStack with
  | nil => exact h
  | cons mv rest =>
    have hpre : coreAgree { a with undoStack := rest } { b with undoStack := rest } :=
      ⟨h.1, h.2.1, h.2.2.1, h.2.2.2.1, rfl⟩
    have := applyMove_coreAgree hpre mv true
    exact ⟨this.1, this.2.1, this.2.2.1, this.2.2.2.1, this.2.2.2.2⟩

/-- Undoing a just-made successful move restores the player, the stars,
both counters and the undo stack (everything but the redo stack). -/
theorem undo_makeMove_roundtrip (mapObj : MapObj) (s : GameState) (d : Option (Int × Int))
    (h : (makeMove mapObj s d).1 = true) :
    coreAgree (undoOp (makeMove mapObj s d).2) s := by
  match d with
  | none => simp [makeMove] at h
  | some (dx, dy) =>
    by_cases h0 : dx = 0 ∧ dy = 0
    · rw [makeMove_zero mapObj s h0] at h
      simp at h
    · by_cases hw : isWall mapObj (s.player.1 + dx) (s.player.2 + dy) = true
      · rw [makeMove_wall mapObj s h0 hw] at h
        simp at h
      · rw [Bool.not_eq_true] at hw
        by_cases hmem : (s.player.1 + dx, s.player.2 + dy) ∈ s.stars
        · by_cases hb : isBlocked mapObj s (s.player.1 + 2 * dx) (s.player.2 + 2 * dy) = true
          · rw [makeMove_push_blocked mapObj s h0 hw hmem hb] at h
            simp at h
          · rw [Bool.not_eq_true] at hb
            rw [makeMove_push_succ mapObj s h0 hw hmem hb]
            have hi : ¬ ((listIndex (s.player.1 + dx, s.player.2 + dy) s.stars : Int) = -1) := by
              omega
            simp only [undoOp, applyMove, applyStep, if_neg hi, eq_self_iff_true, if_true,
              Int.toNat_natCast, coreAgree]
            refine ⟨trivial, ?_, by omega, by omega, trivial⟩
            rw [List.set_set]
            exact set_get?_self (get?_listIndex hmem)
        · rw [makeMove_plain_succ mapObj s h0 hw hmem]
          simp only [undoOp, applyMove, applyStep, eq_self_iff_true, if_true, coreAgree]
          exact ⟨trivial, trivial, by omega, trivial, trivial⟩

theorem movesSeq_undo_core (mapObj : MapObj) (s : GameState) (ds : List (Int × Int))
    (s' : GameState) (h : movesSeq mapObj s ds = some s') :
    coreAgree (undoOp^[ds.length] s') s := by
  induction ds generalizing s with
  | nil =>
    simp only [movesSeq, Option.some.injEq] at h
    subst h
    exact coreAgree_refl s
  | cons d ds ih =>
    simp only [movesSeq] at h
    by_cases hd : (makeMove mapObj s (some d)).1 = true
    · rw [if_pos hd] at h
      have ihs := ih (makeMove mapObj s (some d)).2 h
      rw [List.length_cons, Function.iterate_succ_apply']
      exact coreAgree_trans (undoOp_coreAgree ihs) (undo_makeMove_roundtrip mapObj s (some d) hd)
    · rw [Bool.not_eq_true] at hd
      rw [hd] at h
      simp at h

/-- C4: for every initial state and every sequence of `n` successful
`makeMove` calls, applying the undo operation `n` times restores the
exact initial `(player, stars, stepCounter, pushCounter)` tuple. -/
theorem makeMove_sequence_undo_reversible (mapObj : MapObj) (s : GameState)
    (ds : List (Int × Int)) (s' : GameState) (h : movesSeq mapObj s ds = some s') :
    (undoOp^[ds.length] s').player = s.player ∧
    (undoOp^[ds.length] s').stars = s.stars ∧
    (undoOp^[ds.length] s').stepCounter = s.stepCounter ∧
    (undoOp^[ds.length] s').pushCounter = s.pushCounter := by
  have hc := movesSeq_undo_core mapObj s ds s' h
  exact ⟨hc.1, hc.2.1, hc.2.2.1, hc.2.2.2.1⟩

/-- The state after the witness sequence of two successful pushes below. -/
def twoPushEnd : GameState :=
  { player := (0, 2), stars := [(0, 3)], stepCounter := 2, pushCounter := 2,
    undoStack := [[⟨0, 2, 0, 3, 0⟩, ⟨0, 1, 0, 2, -1⟩],
                  [⟨0, 1, 0, 2, 0⟩, ⟨0, 0, 0, 1, -1⟩]],
    redoStack := [] }

/-- Witness for C4: two successful pushes down a one-column corridor,
then two undos, restore the initial tuple. -/
theorem makeMove_sequence_undo_reversible_witness :
    movesSeq [[' ', ' ', ' ', ' ']] (initGameState (0, 0) [(0, 1)]) [(0, 1), (0, 1)] =
      some twoPushEnd ∧
    ((undoOp^[([((0 : Int), (1 : Int)), (0, 1)] : List (Int × Int)).length] twoPushEnd).player =
        (initGameState (0, 0) [(0, 1)]).player ∧
      (undoOp^[([((0 : Int), (1 : Int)), (0, 1)] : List (Int × Int)).length] twoPushEnd).stars =
        (initGameState (0, 0) [(0, 1)]).stars ∧
      (undoOp^[([((0 : Int), (1 : Int)), (0, 1)] : List (Int × Int)).length] twoPushEnd).stepCounter =
        (initGameState (0, 0) [(0, 1)]).stepCounter ∧
      (undoOp^[([((0 : Int), (1 : Int)), (0, 1)] : List (Int × Int)).length] twoPushEnd).pushCounter =
        (initGameState (0, 0) [(0, 1)]).pushCounter) :=
  ⟨rfl, makeMove_sequence_undo_reversible [[' ', ' ', ' ', ' ']] (initGameState (0, 0) [(0, 1)])
    [(0, 1), (0, 1)] twoPushEnd rfl⟩

/-! ### Counter and history invariant -/

/-- Shape of every move record `makeMove` creates: a single player step
(`index = -1`), or a star step (non-negative index) followed by the
player step. -/
def WfRecord (r : MoveRecord) : Prop :=
  (∃ p, r = [p] ∧ p.index = -1) ∨
  (∃ q p, r = [q, p] ∧ q.index ≠ -1 ∧ p.index = -1)

/-- States reachable from a freshly initialised level state by any
sequence of `makeMove` calls (any map, any direction) and undo/redo
key handler invocations. -/
inductive Reachable (p0 : Coord) (st0 : List Coord) : GameState → Prop where
  | init : Reachable p0 st0 (initGameState p0 st0)
  | move (mapObj : MapObj) (d : Option (Int × Int)) {s : GameState} :
      Reachable p0 st0 s → Reachable p0 st0 (makeMove mapObj s d).2
  | undo {s : GameState} : Reachable p0 st0 s → Reachable p0 st0 (undoOp s)
  | redo {s : GameState} : Reachable p0 st0 s → Reachable p0 st0 (redoOp s)

/-- The inductive invariant: the step counter counts the records of the
undo stack, the push counter counts its two-step records, and every
record in either stack is well-formed. -/
def HistoryInv (s : GameState) : Prop :=
  s.stepCounter = (s.undoStack.length : Int) ∧
  s.pushCounter = (((s.undoStack.filter fun mv => mv.length == 2).length : Nat) : Int) ∧
  (∀ r ∈ s.undoStack, WfRecord r) ∧
  (∀ r ∈ s.redoStack, WfRecord r)

theorem historyInv_init (p0 : Coord) (st0 : List Coord) :
    HistoryInv (initGameState p0 st0) := by
  simp [HistoryInv, initGameState]

theorem historyInv_makeMove (mapObj : MapObj) (d : Option (Int × Int)) {s : GameState}
    (h : HistoryInv s) : HistoryInv (makeMove mapObj s d).2 := by
  obtain ⟨h1, h2, h3, h4⟩ := h
  match d with
  | none => exact ⟨h1, h2, h3, h4⟩
  | some (dx, dy) =>
    by_cases h0 : dx = 0 ∧ dy = 0
    · rw [makeMove_zero mapObj s h0]
      exact ⟨h1, h2, h3, h4⟩
    · by_cases hw : isWall mapObj (s.player.1 + dx) (s.player.2 + dy) = true
      · rw [makeMove_wall mapObj s h0 hw]
        exact ⟨h1, h2, h3, h4⟩
      · rw [Bool.not_eq_true] at hw
        by_cases hmem : (s.player.1 + dx, s.player.2 + dy) ∈ s.stars
        · by_cases hb : isBlocked mapObj s (s.player.1 + 2 * dx) (s.player.2 + 2 * dy) = true
          · rw [makeMove_push_blocked mapObj s h0 hw hmem hb]
            exact ⟨h1, h2, h3, h4⟩
          · rw [Bool.not_eq_true] at hb
            rw [makeMove_push_succ mapObj s h0 hw hmem hb]
            refine ⟨?_, ?_, ?_, ?_⟩
            · simp only [List.length_cons]
              push_cast
              omega
            · simp only [List.filter_cons, List.length_cons]
              norm_num
              omega
            · intro r hr
              rcases List.mem_cons.mp hr with e | hrest
              · subst e
                refine Or.inr ⟨_, _, rfl, ?_, rfl⟩
                show ((listIndex (s.player.1 + dx, s.player.2 + dy) s.stars : Nat) : Int) ≠ -1
                omega
              · exact h3 r hrest
            · intro r hr
              simp at hr
        · rw [makeMove_plain_succ mapObj s h0 hw hmem]
          refine ⟨?_, ?_, ?_, ?_⟩
          · simp only [List.length_cons]
            push_cast
            omega
          · simp only [List.filter_cons, List.length_cons]
            norm_num
            omega
          · intro r hr
            rcases List.mem_cons.mp hr with e | hrest
            · subst e
              exact Or.inl ⟨_, rfl, rfl⟩
            · exact h3 r hrest
          · intro r hr
            simp at hr

theorem historyInv_undoOp {s : GameState} (h : HistoryInv s) : HistoryInv (undoOp s) := by
  obtain ⟨h1, h2, h3, h4⟩ := h
  cases hu : s.undoStack with
  | nil =>
    unfold undoOp
    rw [hu]
    exact ⟨h1, h2, h3, h4⟩
  | cons r rest =>
    rw [hu] at h1 h2 h3
    have hwf : WfRecord r := h3 r (List.mem_cons_self r rest)
    rcases hwf with ⟨p, hr, hpi⟩ | ⟨q, p, hr, hqi, hpi⟩
    · subst hr
      unfold undoOp
      rw [hu]
      simp only [applyMove, applyStep, hpi, eq_self_iff_true, if_true]
      refine ⟨?_, ?_, ?_, ?_⟩
      · simp only [List.length_cons] at h1
        push_cast at h1 ⊢
        omega
      · simp only [List.filter_cons, List.length_cons] at h2
        norm_num at h2
        exact h2
      · intro r' hr'
        exact h3 r' (List.mem_cons_of_mem _ hr')
      · intro r' hr'
        rcases List.mem_cons.mp hr' with e | hmem
        · subst e
          exact Or.inl ⟨p, rfl, hpi⟩
        · exact h4 r' hmem
    · subst hr
      unfold undoOp
      rw [hu]
      simp only [applyMove, applyStep, hpi, hqi, eq_self_iff_true, if_true, if_neg hqi]
      refine ⟨?_, ?_, ?_, ?_⟩
      · simp only [List.length_cons] at h1
        push_cast at h1 ⊢
        omega
      · simp only [List.filter_cons, List.length_cons] at h2
        norm_num at h2
        push_cast at h2 ⊢
        omega
      · intro r' hr'
        exact h3 r' (List.mem_cons_of_mem _ hr')
      · intro r' hr'
        rcases List.mem_cons.mp hr' with e | hmem
        · subst e
          exact Or.inr ⟨q, p, rfl, hqi, hpi⟩
        · exact h4 r' hmem

theorem historyInv_redoOp {s : GameState} (h : HistoryInv s) : HistoryInv (redoOp s) := by
  obtain ⟨h1, h2, h3, h4⟩ := h
  cases hr : s.redoStack with
  | nil =>
    unfold redoOp
    rw [hr]
    exact ⟨h1, h2, h3, h4⟩
  | cons r rest =>
    rw [hr] at h4
    have hwf : WfRecord r := h4 r (List.mem_cons_self r rest)
    rcases hwf with ⟨p, hre, hpi⟩ | ⟨q, p, hre, hqi, hpi⟩
    · subst hre
      unfold redoOp
      rw [hr]
      simp only [applyMove, applyStep, hpi, eq_self_iff_true, if_true]
      refine ⟨?_, ?_, ?_, ?_⟩
      · simp only [List.length_cons]
        push_cast
        omega
      · simp only [List.filter_cons, List.length_cons]
        norm_num
        exact h2
      · intro r' hr'
        rcases List.mem_cons.mp hr' with e | hmem
        · subst e
          exact Or.inl ⟨p, rfl, hpi⟩
        · exact h3 r' hmem
      · intro r' hr'
        exact h4 r' (List.mem_cons_of_mem _ hr')
    · subst hre
      unfold redoOp
      rw [hr]
      simp only [applyMove, applyStep, hpi, hqi, eq_self_iff_true, if_true, if_neg hqi]
      refine ⟨?_, ?_, ?_, ?_⟩
      · simp only [List.length_cons]
        push_cast
        omega
      · simp only [List.filter_cons, List.length_cons]
        norm_num
        omega
      · intro r' hr'
        rcases List.mem_cons.mp hr' with e | hmem
        · subst e
          exact Or.inr ⟨q, p, rfl, hqi, hpi⟩
        · exact h3 r' hmem
      · intro r' hr'
        exact h4 r' (List.mem_cons_of_mem _ hr')

/-- C10: from a freshly initialised state, every state reachable by
`makeMove`, undo and redo has `stepCounter` equal to the number of move
records on the undo stack and `pushCounter` equal to the number of
two-step records there; in particular both counters are non-negative. -/
theorem counters_match_history (p0 : Coord) (st0 : List Coord) (s : GameState)
    (h : Reachable p0 st0 s) :
    s.stepCounter = (s.undoStack.length : Int) ∧
    s.pushCounter = (((s.undoStack.filter fun mv => mv.length == 2).length : Nat) : Int) ∧
    0 ≤ s.stepCounter ∧ 0 ≤ s.pushCounter := by
  have hi : HistoryInv s := by
    induction h with
    | init => exact historyInv_init p0 st0
    | move mapObj d _ ih => exact historyInv_makeMove mapObj d ih
    | undo _ ih => exact historyInv_undoOp ih
    | redo _ ih => exact historyInv_redoOp ih
  refine ⟨hi.1, hi.2.1, ?_, ?_⟩
  · rw [hi.1]
    exact Int.natCast_nonneg _
  · rw [hi.2.1]
    exact Int.natCast_nonneg _

/-- Witness for C10: the state after one successful move from a fresh
state satisfies the counter-history equations. -/
theorem counters_match_history_witness :
    (makeMove [[' ', ' ']] (initGameState (0, 0) []) (some (0, 1))).2.stepCounter =
      (((makeMove [[' ', ' ']] (initGameState (0, 0) []) (some (0, 1))).2.undoStack.length :
        Nat) : Int) ∧
    (makeMove [[' ', ' ']] (initGameState (0, 0) []) (some (0, 1))).2.pushCounter =
      ((((makeMove [[' ', ' ']] (initGameState (0, 0) []) (some (0, 1))).2.undoStack.filter
          fun mv => mv.length == 2).length : Nat) : Int) ∧
    0 ≤ (makeMove [[' ', ' ']] (initGameState (0, 0) []) (some (0, 1))).2.stepCounter ∧
    0 ≤ (makeMove [[' ', ' ']] (initGameState (0, 0) []) (some (0, 1))).2.pushCounter :=
  counters_match_history (0, 0) [] _
    (Reachable.move [[' ', ' ']] (some (0, 1)) Reachable.init)
